import Mathlib

/-!
Shallow embedding of the DDD order-aggregate core.

This file embeds the core classes of the repository — `Money`
(src/unnamed Money value object), `ProductId`/`OrderItem`
(src/unnamed OrderItem entity), the `Order` aggregate root
(src/unnamed Order class) and the `InMemoryOrderRepository`
(src/step-1-basic-model/src/infrastructure/InMemoryOrderRepository.ts) —
and proves the testable properties of the specification against them.

Embedding conventions:
* TypeScript `throw` is embedded as returning an error value.  A public
  `Order` method is embedded as a function `Order → … → Order × Option
  DomainError`: the first component is the state of the aggregate object
  after the call returns or throws (TypeScript exceptions do not roll
  back field assignments already performed, so a method that throws
  after mutating a field leaves the mutation visible to the caller who
  still holds the object), and the second component is `some e` exactly
  when the method threw.
* Monetary amounts and quantities are TypeScript `number`s used as
  integers throughout the source (the spec frames amounts as integer
  minor units and quantities as integers ≥ 1); they are embedded as
  `Int`, under which `Math.floor` of a product of integers is the
  product itself.
* `new Date()` recorded by `place()` is embedded by passing the current
  time as an integer argument.
* Identifier value objects (`OrderId`, `CustomerId`, `ProductId`) wrap a
  string and compare by value; they are embedded as `String`.
-/

/-- The error taxonomy of the spec (§7): Money validation/arithmetic
errors, OrderItem quantity validation, and Order state-machine errors.
`maxItemsExceeded` is raised by `Order.addItem` when the line cap is hit. -/
inductive DomainError where
  | invalidAmount
  | invalidCurrency
  | currencyMismatch
  | negativeResult
  | invalidFactor
  | invalidQuantity
  | invalidState
  | emptyOrder
  | itemNotFound
  | maxItemsExceeded
  deriving DecidableEq, Repr

/-- Money value object: an amount and a currency code (uppercased by the
constructor). -/
structure Money where
  amount : Int
  currency : String
  deriving DecidableEq, Repr

namespace Money

/-- Embeds `currency.toUpperCase()`: uppercase each character. -/
def upper (s : String) : String :=
  ⟨s.data.map Char.toUpper⟩

/-- The `Money` constructor: rejects negative amounts and currency codes
whose length is not exactly 3, and uppercases the currency code. -/
def make (amount : Int) (currency : String) : Except DomainError Money :=
  if amount < 0 then .error .invalidAmount
  else if currency.length ≠ 3 then .error .invalidCurrency
  else .ok ⟨amount, upper currency⟩

/-- Embeds `Money.zero()` with the default currency `'JPY'`. -/
def zero : Money := ⟨0, "JPY"⟩

/-- Embeds `Money.fromYen(amount)`. -/
def fromYen (amount : Int) : Except DomainError Money :=
  make amount "JPY"

/-- Embeds `assertSameCurrency`: fails with `CurrencyMismatch` when the two
currency codes differ. -/
def assertSameCurrency (m other : Money) : Except DomainError Unit :=
  if m.currency ≠ other.currency then .error .currencyMismatch else .ok ()

/-- Embeds `Money.add`. -/
def add (m other : Money) : Except DomainError Money := do
  m.assertSameCurrency other
  make (m.amount + other.amount) m.currency

/-- Embeds `Money.subtract`: fails with `NegativeResult` when the difference is
negative. -/
def subtract (m other : Money) : Except DomainError Money := do
  m.assertSameCurrency other
  let result := m.amount - other.amount
  if result < 0 then .error .negativeResult
  else make result m.currency

/-- Embeds `Money.multiply(multiplier)`: the multiplier is a plain number, not a
`Money`; the only validation is `multiplier < 0`.  `Math.floor` is the
identity on the integer product. -/
def multiply (m : Money) (multiplier : Int) : Except DomainError Money :=
  if multiplier < 0 then .error .invalidFactor
  else make (m.amount * multiplier) m.currency

/-- Embeds `Money.equals`: componentwise comparison. -/
def equals (m other : Money) : Bool :=
  m.amount == other.amount && m.currency == other.currency

/-- Embeds `Money.greaterThan`: requires matching currencies. -/
def greaterThan (m other : Money) : Except DomainError Bool := do
  m.assertSameCurrency other
  pure (decide (other.amount < m.amount))

end Money

/-- OrderItem child entity: product reference, quantity, unit price. -/
structure OrderItem where
  productId : String
  quantity : Int
  unitPrice : Money
  deriving DecidableEq, Repr

namespace OrderItem

/-- The `OrderItem` constructor: rejects `quantity <= 0`. -/
def make (productId : String) (quantity : Int) (unitPrice : Money) :
    Except DomainError OrderItem :=
  if quantity ≤ 0 then .error .invalidQuantity
  else .ok ⟨productId, quantity, unitPrice⟩

/-- Embeds `changeQuantity`: rejects `newQuantity <= 0`, otherwise replaces the
stored quantity. -/
def changeQuantity (item : OrderItem) (newQuantity : Int) :
    Except DomainError OrderItem :=
  if newQuantity ≤ 0 then .error .invalidQuantity
  else .ok { item with quantity := newQuantity }

/-- Embeds `getSubtotal()`: unit price times quantity. -/
def getSubtotal (item : OrderItem) : Except DomainError Money :=
  item.unitPrice.multiply item.quantity

/-- Embeds `hasProduct`: product-reference equality. -/
def hasProduct (item : OrderItem) (productId : String) : Bool :=
  item.productId == productId

end OrderItem

/-- The `OrderStatus` enumeration. -/
inductive OrderStatus where
  | draft
  | placed
  | paid
  | shipped
  | delivered
  | cancelled
  deriving DecidableEq, Repr

/-- Order aggregate root: identifier, customer reference, line items,
status, derived total, and the optional timestamp set by `place()`. -/
structure Order where
  id : String
  customerId : String
  items : List OrderItem
  status : OrderStatus
  totalAmount : Money
  placedAt : Option Int
  deriving DecidableEq, Repr

namespace Order

/-- Embeds `private readonly maxItems: number = 100`. -/
def maxItems : Nat := 100

/-- The `Order` constructor: draft status, no items, zero total. -/
def create (id customerId : String) : Order :=
  ⟨id, customerId, [], .draft, Money.zero, none⟩

/-- Embeds the reducer callback of `recalculateTotal`: `(sum, item) =>
sum.add(item.getSubtotal())`, with exception propagation. -/
def sumStep (sum : Except DomainError Money) (item : OrderItem) :
    Except DomainError Money := do
  (← sum).add (← item.getSubtotal)

/-- Embeds the reduction inside `recalculateTotal`:
`items.reduce((sum, item) => sum.add(item.getSubtotal()), Money.zero())`. -/
def sumSubtotals (items : List OrderItem) : Except DomainError Money :=
  items.foldl sumStep (.ok Money.zero)

/-- Commit a successful list mutation: the item list is already updated
(the TypeScript method has already spliced/pushed/assigned), then
`recalculateTotal()` runs.  If the recomputation throws, the exception
propagates with the list mutation still in place and the stale total. -/
def finishMutation (o : Order) (items : List OrderItem) :
    Order × Option DomainError :=
  match sumSubtotals items with
  | .ok total => ({ o with items := items, totalAmount := total }, none)
  | .error e => ({ o with items := items }, some e)

/-- Embeds `ensureCanModify`: only draft orders may be mutated. -/
def ensureCanModify (o : Order) : Except DomainError Unit :=
  if o.status ≠ .draft then .error .invalidState else .ok ()

/-- Embeds `items.find(item => item.hasProduct(productId))` followed by an
in-place `changeQuantity(f oldQuantity)` on the first matching line:
`none` when no line matches, `some (.error e)` when `changeQuantity`
throws, `some (.ok items')` with the updated list otherwise. -/
def updateFirstQuantity (items : List OrderItem) (productId : String)
    (f : Int → Int) : Option (Except DomainError (List OrderItem)) :=
  match items with
  | [] => none
  | item :: rest =>
    if item.hasProduct productId then
      some (match item.changeQuantity (f item.quantity) with
            | .error e => .error e
            | .ok updated => .ok (updated :: rest))
    else
      match updateFirstQuantity rest productId f with
      | none => none
      | some (.error e) => some (.error e)
      | some (.ok rest') => some (.ok (item :: rest'))

/-- Embeds `Order.addItem(productId, quantity, unitPrice)`: guard on draft
status, then on the line cap, then merge into an existing line or push a
new one, then recalculate the total. -/
def addItem (o : Order) (productId : String) (quantity : Int)
    (unitPrice : Money) : Order × Option DomainError :=
  match o.ensureCanModify with
  | .error e => (o, some e)
  | .ok _ =>
    if maxItems ≤ o.items.length then (o, some .maxItemsExceeded)
    else
      match updateFirstQuantity o.items productId (fun q => q + quantity) with
      | some (.error e) => (o, some e)
      | some (.ok items) => finishMutation o items
      | none =>
        match OrderItem.make productId quantity unitPrice with
        | .error e => (o, some e)
        | .ok newItem => finishMutation o (o.items ++ [newItem])

/-- Embeds `Order.removeItem(productId)`: `findIndex` then `splice(index,
1)` then recalculate. -/
def removeItem (o : Order) (productId : String) :
    Order × Option DomainError :=
  match o.ensureCanModify with
  | .error e => (o, some e)
  | .ok _ =>
    match o.items.findIdx? (fun item => item.hasProduct productId) with
    | none => (o, some .itemNotFound)
    | some index => finishMutation o (o.items.eraseIdx index)

/-- Embeds `Order.changeItemQuantity(productId, newQuantity)`: find the line,
`changeQuantity(newQuantity)` in place, then recalculate. -/
def changeItemQuantity (o : Order) (productId : String)
    (newQuantity : Int) : Order × Option DomainError :=
  match o.ensureCanModify with
  | .error e => (o, some e)
  | .ok _ =>
    match updateFirstQuantity o.items productId (fun _ => newQuantity) with
    | none => (o, some .itemNotFound)
    | some (.error e) => (o, some e)
    | some (.ok items) => finishMutation o items

/-- Embeds `Order.place()`: requires draft status and at least one item; sets
the status to placed and records the timestamp. -/
def place (o : Order) (now : Int) : Order × Option DomainError :=
  if o.status ≠ .draft then (o, some .invalidState)
  else if o.items.length = 0 then (o, some .emptyOrder)
  else ({ o with status := .placed, placedAt := some now }, none)

/-- Embeds `Order.markAsPaid()`. -/
def markAsPaid (o : Order) : Order × Option DomainError :=
  if o.status ≠ .placed then (o, some .invalidState)
  else ({ o with status := .paid }, none)

/-- Embeds `Order.ship()`. -/
def ship (o : Order) : Order × Option DomainError :=
  if o.status ≠ .paid then (o, some .invalidState)
  else ({ o with status := .shipped }, none)

/-- Embeds `Order.deliver()`. -/
def deliver (o : Order) : Order × Option DomainError :=
  if o.status ≠ .shipped then (o, some .invalidState)
  else ({ o with status := .delivered }, none)

/-- Embeds `Order.cancel()`: rejected from shipped, delivered, cancelled. -/
def cancel (o : Order) : Order × Option DomainError :=
  if o.status = .shipped ∨ o.status = .delivered ∨ o.status = .cancelled then
    (o, some .invalidState)
  else ({ o with status := .cancelled }, none)

/-- Embeds `Order.equals`: identity comparison by `OrderId`. -/
def equalsOrder (o other : Order) : Bool :=
  o.id == other.id

end Order

/-- One call to a public `Order` method, with its arguments. -/
inductive OrderOp where
  | addItem (productId : String) (quantity : Int) (unitPrice : Money)
  | removeItem (productId : String)
  | changeItemQuantity (productId : String) (newQuantity : Int)
  | place (now : Int)
  | markAsPaid
  | ship
  | deliver
  | cancel
  deriving DecidableEq, Repr

/-- Dispatch one public method call. -/
def Order.apply (o : Order) : OrderOp → Order × Option DomainError
  | .addItem productId quantity unitPrice => o.addItem productId quantity unitPrice
  | .removeItem productId => o.removeItem productId
  | .changeItemQuantity productId newQuantity =>
      o.changeItemQuantity productId newQuantity
  | .place now => o.place now
  | .markAsPaid => o.markAsPaid
  | .ship => o.ship
  | .deliver => o.deliver
  | .cancel => o.cancel

/-- The states an `Order` object can actually be in: freshly constructed,
or the post-state of any public method call (whether or not it threw) on
a reachable state. -/
inductive Order.Reachable : Order → Prop where
  | create (id customerId : String) : Reachable (Order.create id customerId)
  | step {o : Order} (op : OrderOp) : Reachable o → Reachable (o.apply op).fst

/-- The aggregate invariant: the stored total is exactly what
`recalculateTotal` computes from the current items (in particular the
empty list sums to zero Money). -/
def Order.totalInvariant (o : Order) : Prop :=
  Order.sumSubtotals o.items = .ok o.totalAmount

/-- In-memory repository: `Map<string, Order>` keyed by
`order.getId().toString()`, embedded as a lookup function. -/
def InMemoryOrderRepository := String → Option Order

namespace InMemoryOrderRepository

/-- The freshly constructed repository: an empty map. -/
def empty : InMemoryOrderRepository := fun _ => none

/-- Embeds `save(order)`: `this.orders.set(order.getId().toString(), order)`. -/
def save (r : InMemoryOrderRepository) (o : Order) : InMemoryOrderRepository :=
  fun key => if key = o.id then some o else r key

/-- Embeds `findById(id)`: `this.orders.get(id.toString())`, `null` when absent. -/
def findById (r : InMemoryOrderRepository) (id : String) : Option Order :=
  r id

/-- Embeds `delete(id)`. -/
def erase (r : InMemoryOrderRepository) (id : String) : InMemoryOrderRepository :=
  fun key => if key = id then none else r key

end InMemoryOrderRepository

/-!
Helper lemmas: classification of the errors each arithmetic step can
raise, and basic facts about the mutation plumbing.
-/

/-- The `Money` constructor only raises amount/currency validation errors. -/
theorem Money.make_error {amount : Int} {currency : String} {e : DomainError}
    (h : Money.make amount currency = .error e) :
    e = .invalidAmount ∨ e = .invalidCurrency := by
  unfold Money.make at h
  split at h
  · exact Or.inl (by simpa using h.symm)
  · split at h
    · exact Or.inr (by simpa using h.symm)
    · simp at h

/-- `Money.multiply` never raises `currencyMismatch` (its factor is a
number, not a `Money`). -/
theorem Money.multiply_error {m : Money} {k : Int} {e : DomainError}
    (h : Money.multiply m k = .error e) :
    e = .invalidFactor ∨ e = .invalidAmount ∨ e = .invalidCurrency := by
  unfold Money.multiply at h
  split at h
  · exact Or.inl (by simpa using h.symm)
  · exact Or.inr (Money.make_error h)

/-- `Money.add` only raises money arithmetic errors. -/
theorem Money.add_error {m other : Money} {e : DomainError}
    (h : Money.add m other = .error e) :
    e = .currencyMismatch ∨ e = .invalidAmount ∨ e = .invalidCurrency := by
  unfold Money.add Money.assertSameCurrency at h
  split at h
  · exact Or.inl (by simpa [Bind.bind, Except.bind] using h.symm)
  · simp only [Bind.bind, Except.bind] at h
    exact Or.inr (Money.make_error h)

/-- One reducer step raises only money arithmetic errors (or passes an
already-raised error through). -/
theorem Order.sumStep_error {acc : Except DomainError Money}
    {item : OrderItem} {e : DomainError}
    (h : Order.sumStep acc item = .error e) :
    acc = .error e ∨ e = .currencyMismatch ∨ e = .invalidFactor ∨
      e = .invalidAmount ∨ e = .invalidCurrency := by
  unfold Order.sumStep at h
  cases acc with
  | error e₁ =>
    left
    simpa [Bind.bind, Except.bind] using h
  | ok m =>
    right
    simp only [Bind.bind, Except.bind] at h
    cases hs : item.getSubtotal with
    | error e₂ =>
      rw [hs] at h
      unfold OrderItem.getSubtotal at hs
      have he : e₂ = e := by simpa using h
      rcases Money.multiply_error (he ▸ hs) with h' | h' | h'
      · exact Or.inr (Or.inl h')
      · exact Or.inr (Or.inr (Or.inl h'))
      · exact Or.inr (Or.inr (Or.inr h'))
    | ok s =>
      rw [hs] at h
      rcases Money.add_error h with h' | h' | h'
      · exact Or.inl h'
      · exact Or.inr (Or.inr (Or.inl h'))
      · exact Or.inr (Or.inr (Or.inr h'))

/-- Folding the reducer raises only money arithmetic errors (or passes an
already-raised error through). -/
theorem Order.foldl_sumStep_error :
    ∀ (items : List OrderItem) (acc : Except DomainError Money)
      (e : DomainError), items.foldl Order.sumStep acc = .error e →
      acc = .error e ∨ e = .currencyMismatch ∨ e = .invalidFactor ∨
        e = .invalidAmount ∨ e = .invalidCurrency := by
  intro items
  induction items with
  | nil => exact fun acc e h => Or.inl h
  | cons item rest ih =>
    intro acc e h
    rw [List.foldl_cons] at h
    rcases ih (Order.sumStep acc item) e h with h' | h'
    · rcases Order.sumStep_error h' with h'' | h''
      · exact Or.inl h''
      · exact Or.inr h''
    · exact Or.inr h'

/-- The total recomputation raises only money arithmetic errors — never
`invalidState`, `emptyOrder`, `itemNotFound`, `invalidQuantity` or
`maxItemsExceeded`. -/
theorem Order.sumSubtotals_error {items : List OrderItem} {e : DomainError}
    (h : Order.sumSubtotals items = .error e) :
    e = .currencyMismatch ∨ e = .invalidFactor ∨ e = .invalidAmount ∨
      e = .invalidCurrency := by
  rcases Order.foldl_sumStep_error items (.ok Money.zero) e h with h' | h'
  · simp at h'
  · exact h'

/-- A committed mutation stores exactly the mutated list. -/
theorem Order.finishMutation_fst_items (o : Order) (items : List OrderItem) :
    (Order.finishMutation o items).fst.items = items := by
  unfold Order.finishMutation
  split <;> rfl

/-- A committed mutation does not touch the status. -/
theorem Order.finishMutation_fst_status (o : Order) (items : List OrderItem) :
    (Order.finishMutation o items).fst.status = o.status := by
  unfold Order.finishMutation
  split <;> rfl

/-- A committed mutation that did not throw re-established the total
invariant. -/
theorem Order.finishMutation_inv (o : Order) (items : List OrderItem)
    (h : (Order.finishMutation o items).snd = none) :
    Order.totalInvariant (Order.finishMutation o items).fst := by
  unfold Order.finishMutation at h ⊢
  rcases hs : Order.sumSubtotals items with e | total
  · rw [hs] at h
    simp at h
  · simpa [Order.totalInvariant] using hs

/-- A committed mutation that threw passed along an error of the total
recomputation. -/
theorem Order.finishMutation_snd_error (o : Order) (items : List OrderItem)
    (e : DomainError) (h : (Order.finishMutation o items).snd = some e) :
    Order.sumSubtotals items = .error e := by
  unfold Order.finishMutation at h
  rcases hs : Order.sumSubtotals items with e₁ | total
  · rw [hs] at h
    simpa using h
  · rw [hs] at h
    simp at h

/-- Calling `addItem` on a non-draft order throws `invalidState` and
returns the order unchanged. -/
theorem Order.addItem_non_draft {o : Order} (h : o.status ≠ .draft)
    (productId : String) (quantity : Int) (unitPrice : Money) :
    o.addItem productId quantity unitPrice = (o, some .invalidState) := by
  unfold Order.addItem Order.ensureCanModify
  rw [if_pos h]

/-- Calling `removeItem` on a non-draft order throws `invalidState` and
returns the order unchanged. -/
theorem Order.removeItem_non_draft {o : Order} (h : o.status ≠ .draft)
    (productId : String) :
    o.removeItem productId = (o, some .invalidState) := by
  unfold Order.removeItem Order.ensureCanModify
  rw [if_pos h]

/-- Calling `changeItemQuantity` on a non-draft order throws
`invalidState` and returns the order unchanged. -/
theorem Order.changeItemQuantity_non_draft {o : Order} (h : o.status ≠ .draft)
    (productId : String) (newQuantity : Int) :
    o.changeItemQuantity productId newQuantity = (o, some .invalidState) := by
  unfold Order.changeItemQuantity Order.ensureCanModify
  rw [if_pos h]

/-- `addItem` never changes the status field. -/
theorem Order.addItem_fst_status (o : Order) (productId : String)
    (quantity : Int) (unitPrice : Money) :
    (o.addItem productId quantity unitPrice).fst.status = o.status := by
  unfold Order.addItem
  split
  · rfl
  split
  · rfl
  split
  · rfl
  · exact Order.finishMutation_fst_status ..
  · split
    · rfl
    · exact Order.finishMutation_fst_status ..

/-- `removeItem` never changes the status field. -/
theorem Order.removeItem_fst_status (o : Order) (productId : String) :
    (o.removeItem productId).fst.status = o.status := by
  unfold Order.removeItem
  split
  · rfl
  split
  · rfl
  · exact Order.finishMutation_fst_status ..

/-- `changeItemQuantity` never changes the status field. -/
theorem Order.changeItemQuantity_fst_status (o : Order) (productId : String)
    (newQuantity : Int) :
    (o.changeItemQuantity productId newQuantity).fst.status = o.status := by
  unfold Order.changeItemQuantity
  split
  · rfl
  split
  · rfl
  · rfl
  · exact Order.finishMutation_fst_status ..

/-- Updating the first matching line in place preserves the line count. -/
theorem Order.updateFirstQuantity_length :
    ∀ (items : List OrderItem) (productId : String) (f : Int → Int)
      (items' : List OrderItem),
      Order.updateFirstQuantity items productId f = some (.ok items') →
      items'.length = items.length := by
  intro items productId f
  induction items with
  | nil =>
    intro items' h
    simp [Order.updateFirstQuantity] at h
  | cons item rest ih =>
    intro items' h
    unfold Order.updateFirstQuantity at h
    by_cases hp : item.hasProduct productId
    · rw [if_pos hp] at h
      rcases hc : item.changeQuantity (f item.quantity) with e | updated
      · rw [hc] at h
        simp at h
      · rw [hc] at h
        simp only [Option.some.injEq, Except.ok.injEq] at h
        subst h
        rfl
    · rw [if_neg hp] at h
      rcases hr : Order.updateFirstQuantity rest productId f with _ | exl
      · rw [hr] at h
        simp at h
      · rcases exl with e | rest'
        · rw [hr] at h
          simp at h
        · rw [hr] at h
          simp only [Option.some.injEq, Except.ok.injEq] at h
          subst h
          simp [ih rest' hr]

/-- Updating the first matching line rewrites exactly that line when the
new quantity is positive. -/
theorem Order.updateFirstQuantity_append (productId : String) (f : Int → Int) :
    ∀ (l₁ : List OrderItem) (item : OrderItem) (l₂ : List OrderItem),
      (∀ i ∈ l₁, i.hasProduct productId = false) →
      item.hasProduct productId = true →
      0 < f item.quantity →
      Order.updateFirstQuantity (l₁ ++ item :: l₂) productId f =
        some (.ok (l₁ ++ { item with quantity := f item.quantity } :: l₂)) := by
  intro l₁
  induction l₁ with
  | nil =>
    intro item l₂ h₁ h₂ h₃
    simp only [List.nil_append]
    unfold Order.updateFirstQuantity
    rw [if_pos h₂]
    unfold OrderItem.changeQuantity
    rw [if_neg (by omega)]
  | cons i l₁ ih =>
    intro item l₂ h₁ h₂ h₃
    simp only [List.cons_append]
    unfold Order.updateFirstQuantity
    rw [if_neg (by simp [h₁ i (List.mem_cons_self i l₁)])]
    rw [ih item l₂ (fun j hj => h₁ j (List.mem_cons_of_mem _ hj)) h₂ h₃]

/-- The in-place update finds nothing when no line matches. -/
theorem Order.updateFirstQuantity_none :
    ∀ (items : List OrderItem) (productId : String) (f : Int → Int),
      (∀ i ∈ items, i.hasProduct productId = false) →
      Order.updateFirstQuantity items productId f = none := by
  intro items productId f
  induction items with
  | nil => intro _; rfl
  | cons item rest ih =>
    intro h
    unfold Order.updateFirstQuantity
    rw [if_neg (by simp [h item (List.mem_cons_self item rest)])]
    rw [ih (fun j hj => h j (List.mem_cons_of_mem _ hj))]

/-- An `addItem` call that did not throw re-established the total
invariant. -/
theorem Order.addItem_success_inv (o : Order) (productId : String)
    (quantity : Int) (unitPrice : Money)
    (h : (o.addItem productId quantity unitPrice).snd = none) :
    Order.totalInvariant (o.addItem productId quantity unitPrice).fst := by
  unfold Order.addItem at h ⊢
  rcases hc : o.ensureCanModify with e | u
  · rw [hc] at h
    simp at h
  · rw [hc] at h
    by_cases hlen : Order.maxItems ≤ o.items.length
    · rw [if_pos hlen] at h
      simp at h
    · rw [if_neg hlen] at h
      rcases hu : Order.updateFirstQuantity o.items productId
          (fun q => q + quantity) with _ | exl
      · rw [hu] at h
        rcases hm : OrderItem.make productId quantity unitPrice
            with e₁ | newItem
        · rw [hm] at h
          simp at h
        · rw [hm] at h
          rw [if_neg hlen]
          exact Order.finishMutation_inv o (o.items ++ [newItem]) h
      · rcases exl with e₁ | items₁
        · rw [hu] at h
          simp at h
        · rw [hu] at h
          rw [if_neg hlen]
          exact Order.finishMutation_inv o items₁ h

/-- A `removeItem` call that did not throw re-established the total
invariant. -/
theorem Order.removeItem_success_inv (o : Order) (productId : String)
    (h : (o.removeItem productId).snd = none) :
    Order.totalInvariant (o.removeItem productId).fst := by
  unfold Order.removeItem at h ⊢
  rcases hc : o.ensureCanModify with e | u
  · rw [hc] at h
    simp at h
  · rw [hc] at h
    rcases hi : o.items.findIdx? (fun item => item.hasProduct productId)
        with _ | index
    · rw [hi] at h
      simp at h
    · rw [hi] at h
      rw [hi]
      exact Order.finishMutation_inv o (o.items.eraseIdx index) h

/-- A `changeItemQuantity` call that did not throw re-established the
total invariant. -/
theorem Order.changeItemQuantity_success_inv (o : Order) (productId : String)
    (newQuantity : Int)
    (h : (o.changeItemQuantity productId newQuantity).snd = none) :
    Order.totalInvariant (o.changeItemQuantity productId newQuantity).fst := by
  unfold Order.changeItemQuantity at h ⊢
  rcases hc : o.ensureCanModify with e | u
  · rw [hc] at h
    simp at h
  · rw [hc] at h
    rcases hu : Order.updateFirstQuantity o.items productId
        (fun _ => newQuantity) with _ | exl
    · rw [hu] at h
      simp at h
    · rcases exl with e₁ | items₁
      · rw [hu] at h
        simp at h
      · rw [hu] at h
        exact Order.finishMutation_inv o items₁ h

/-- A failing `addItem` either returns the order unchanged or failed in
the total recomputation with a money arithmetic error. -/
theorem Order.addItem_fail (o : Order) (productId : String) (quantity : Int)
    (unitPrice : Money) (e : DomainError)
    (h : (o.addItem productId quantity unitPrice).snd = some e) :
    (o.addItem productId quantity unitPrice).fst = o ∨
      e = .currencyMismatch ∨ e = .invalidFactor ∨ e = .invalidAmount ∨
        e = .invalidCurrency := by
  unfold Order.addItem at h ⊢
  rcases hc : o.ensureCanModify with e₁ | u
  · rw [hc] at h
    exact Or.inl rfl
  · rw [hc] at h
    by_cases hlen : Order.maxItems ≤ o.items.length
    · rw [if_pos hlen] at h
      rw [if_pos hlen]
      exact Or.inl rfl
    · rw [if_neg hlen] at h
      rw [if_neg hlen]
      rcases hu : Order.updateFirstQuantity o.items productId
          (fun q => q + quantity) with _ | exl
      · rw [hu] at h
        rcases hm : OrderItem.make productId quantity unitPrice
            with e₂ | newItem
        · rw [hm] at h
          exact Or.inl rfl
        · rw [hm] at h
          exact Or.inr (Order.sumSubtotals_error
            (Order.finishMutation_snd_error o (o.items ++ [newItem]) e h))
      · rcases exl with e₂ | items₁
        · rw [hu] at h
          exact Or.inl rfl
        · rw [hu] at h
          exact Or.inr (Order.sumSubtotals_error
            (Order.finishMutation_snd_error o items₁ e h))

/-- A failing `removeItem` either returns the order unchanged or failed
in the total recomputation with a money arithmetic error. -/
theorem Order.removeItem_fail (o : Order) (productId : String)
    (e : DomainError) (h : (o.removeItem productId).snd = some e) :
    (o.removeItem productId).fst = o ∨
      e = .currencyMismatch ∨ e = .invalidFactor ∨ e = .invalidAmount ∨
        e = .invalidCurrency := by
  unfold Order.removeItem at h ⊢
  rcases hc : o.ensureCanModify with e₁ | u
  · rw [hc] at h
    exact Or.inl rfl
  · rw [hc] at h
    rcases hi : o.items.findIdx? (fun item => item.hasProduct productId)
        with _ | index
    · rw [hi] at h
      rw [hi]
      exact Or.inl rfl
    · rw [hi] at h
      exact Or.inr (Order.sumSubtotals_error
        (Order.finishMutation_snd_error o (o.items.eraseIdx index) e h))

/-- A failing `changeItemQuantity` either returns the order unchanged or
failed in the total recomputation with a money arithmetic error. -/
theorem Order.changeItemQuantity_fail (o : Order) (productId : String)
    (newQuantity : Int) (e : DomainError)
    (h : (o.changeItemQuantity productId newQuantity).snd = some e) :
    (o.changeItemQuantity productId newQuantity).fst = o ∨
      e = .currencyMismatch ∨ e = .invalidFactor ∨ e = .invalidAmount ∨
        e = .invalidCurrency := by
  unfold Order.changeItemQuantity at h ⊢
  rcases hc : o.ensureCanModify with e₁ | u
  · rw [hc] at h
    exact Or.inl rfl
  · rw [hc] at h
    rcases hu : Order.updateFirstQuantity o.items productId
        (fun _ => newQuantity) with _ | exl
    · rw [hu] at h
      exact Or.inl rfl
    · rcases exl with e₂ | items₁
      · rw [hu] at h
        exact Or.inl rfl
      · rw [hu] at h
        exact Or.inr (Order.sumSubtotals_error
          (Order.finishMutation_snd_error o items₁ e h))

/-- A failing status transition returns the order unchanged. -/
theorem Order.transition_fail (o : Order) (now : Int) :
    (∀ e, (o.place now).snd = some e → (o.place now).fst = o) ∧
    (∀ e, o.markAsPaid.snd = some e → o.markAsPaid.fst = o) ∧
    (∀ e, o.ship.snd = some e → o.ship.fst = o) ∧
    (∀ e, o.deliver.snd = some e → o.deliver.fst = o) ∧
    (∀ e, o.cancel.snd = some e → o.cancel.fst = o) := by
  refine ⟨?_, ?_, ?_, ?_, ?_⟩ <;> intro e h
  · unfold Order.place at h ⊢
    split at h
    · rw [if_pos (by assumption)]
    · split at h
      · rw [if_neg (by assumption), if_pos (by assumption)]
      · simp at h
  · unfold Order.markAsPaid at h ⊢
    split at h
    · rw [if_pos (by assumption)]
    · simp at h
  · unfold Order.ship at h ⊢
    split at h
    · rw [if_pos (by assumption)]
    · simp at h
  · unfold Order.deliver at h ⊢
    split at h
    · rw [if_pos (by assumption)]
    · simp at h
  · unfold Order.cancel at h ⊢
    split at h
    · rw [if_pos (by assumption)]
    · simp at h

/-- From a terminal status (delivered or cancelled) every public method
throws and returns the order unchanged. -/
theorem Order.terminal_apply_eq {o : Order}
    (h : o.status = .delivered ∨ o.status = .cancelled) (op : OrderOp) :
    (o.apply op).fst = o := by
  have hnd : o.status ≠ .draft := by rcases h with h | h <;> simp [h]
  cases op with
  | addItem productId quantity unitPrice =>
    rw [Order.apply, Order.addItem_non_draft hnd]
  | removeItem productId =>
    rw [Order.apply, Order.removeItem_non_draft hnd]
  | changeItemQuantity productId newQuantity =>
    rw [Order.apply, Order.changeItemQuantity_non_draft hnd]
  | place now =>
    rw [Order.apply]
    unfold Order.place
    rw [if_pos hnd]
  | markAsPaid =>
    rw [Order.apply]
    unfold Order.markAsPaid
    rw [if_pos (by rcases h with h | h <;> simp [h])]
  | ship =>
    rw [Order.apply]
    unfold Order.ship
    rw [if_pos (by rcases h with h | h <;> simp [h])]
  | deliver =>
    rw [Order.apply]
    unfold Order.deliver
    rw [if_pos (by rcases h with h | h <;> simp [h])]
  | cancel =>
    rw [Order.apply]
    unfold Order.cancel
    rw [if_pos (by rcases h with h | h <;> simp [h])]

/-!
Claim theorems.
-/

/-- C1: for every draft Order and every sequence of addItem, removeItem
and changeItemQuantity calls, the total equals the sum of the current
items' subtotals (unitPrice × quantity), the empty sum being zero Money,
re-established after every successful mutation.  Stated as: a fresh order
satisfies the invariant, the empty sum is zero Money, and each of the
three mutation calls, from any order state whatsoever — hence at every
step of any call sequence — re-establishes the invariant whenever it
returns without throwing. -/
theorem order_total_matches_item_sum :
    (∀ id customerId, Order.totalInvariant (Order.create id customerId)) ∧
    Order.sumSubtotals [] = .ok Money.zero ∧
    (∀ (o : Order) (productId : String) (quantity : Int) (unitPrice : Money),
      (o.addItem productId quantity unitPrice).snd = none →
        Order.totalInvariant (o.addItem productId quantity unitPrice).fst) ∧
    (∀ (o : Order) (productId : String),
      (o.removeItem productId).snd = none →
        Order.totalInvariant (o.removeItem productId).fst) ∧
    (∀ (o : Order) (productId : String) (newQuantity : Int),
      (o.changeItemQuantity productId newQuantity).snd = none →
        Order.totalInvariant (o.changeItemQuantity productId newQuantity).fst) :=
  ⟨fun _ _ => rfl, rfl,
   Order.addItem_success_inv, Order.removeItem_success_inv,
   Order.changeItemQuantity_success_inv⟩

/-- Witness for C1: the invariant after one concrete successful addItem. -/
theorem order_total_matches_item_sum_witness :
    Order.totalInvariant
      ((Order.create "o1" "C1").addItem "P1" 2 ⟨1000, "JPY"⟩).fst :=
  order_total_matches_item_sum.2.2.1 (Order.create "o1" "C1") "P1" 2
    ⟨1000, "JPY"⟩ (by rfl)

/-- C2 counterexample: a reachable Order with zero items whose place()
fails with invalidState rather than emptyOrder — an empty draft order
that has been cancelled. -/
theorem place_on_empty_cancelled_order :
    ((Order.create "o1" "C1").cancel.fst.place 0).snd = some .invalidState ∧
    (Order.create "o1" "C1").cancel.fst.items = [] ∧
    Order.Reachable (Order.create "o1" "C1").cancel.fst ∧
    some DomainError.invalidState ≠ some DomainError.emptyOrder := by
  refine ⟨rfl, rfl, ?_, by decide⟩
  exact Order.Reachable.step .cancel (Order.Reachable.create "o1" "C1")

/-- C2 (amended): on a draft Order, place() with zero items fails with
emptyOrder and place() with at least one item succeeds, sets the status
to placed and records the timestamp; on a non-draft Order place() fails
with invalidState.  The timestamp is the only extra effect: no other
transition touches it, and place changes nothing besides status and
timestamp. -/
theorem place_spec (o : Order) (now : Int) :
    (o.status = .draft → o.items = [] → o.place now = (o, some .emptyOrder)) ∧
    (o.status = .draft → o.items ≠ [] →
      o.place now = ({ o with status := .placed, placedAt := some now }, none)) ∧
    (o.status ≠ .draft → o.place now = (o, some .invalidState)) ∧
    o.markAsPaid.fst.placedAt = o.placedAt ∧
    o.ship.fst.placedAt = o.placedAt ∧
    o.deliver.fst.placedAt = o.placedAt ∧
    o.cancel.fst.placedAt = o.placedAt ∧
    (o.place now).fst.items = o.items ∧
    (o.place now).fst.totalAmount = o.totalAmount := by
  refine ⟨?_, ?_, ?_, ?_, ?_, ?_, ?_, ?_, ?_⟩
  · intro h₁ h₂
    unfold Order.place
    rw [if_neg (by simp [h₁]), if_pos (by simp [h₂])]
  · intro h₁ h₂
    unfold Order.place
    rw [if_neg (by simp [h₁]),
      if_neg (by simpa using h₂)]
  · intro h₁
    unfold Order.place
    rw [if_pos h₁]
  · unfold Order.markAsPaid
    split <;> rfl
  · unfold Order.ship
    split <;> rfl
  · unfold Order.deliver
    split <;> rfl
  · unfold Order.cancel
    split <;> rfl
  · unfold Order.place
    split
    · rfl
    · split <;> rfl
  · unfold Order.place
    split
    · rfl
    · split <;> rfl

/-- Witness for C2 (amended): placing a concrete one-item draft order. -/
theorem place_spec_witness :
    ((Order.create "o1" "C1").addItem "P1" 1 ⟨500, "JPY"⟩).fst.place 7 =
      ({ ((Order.create "o1" "C1").addItem "P1" 1 ⟨500, "JPY"⟩).fst with
          status := .placed, placedAt := some 7 }, none) :=
  (place_spec _ 7).2.1 (by rfl) (by decide)

/-- C3: each mutation method on a non-draft Order fails with invalidState
and leaves every attribute of the order (item list, status, total amount,
timestamp) unchanged. -/
theorem mutations_on_non_draft_fail (o : Order) (h : o.status ≠ .draft) :
    (∀ (productId : String) (quantity : Int) (unitPrice : Money),
      o.addItem productId quantity unitPrice = (o, some .invalidState)) ∧
    (∀ (productId : String),
      o.removeItem productId = (o, some .invalidState)) ∧
    (∀ (productId : String) (newQuantity : Int),
      o.changeItemQuantity productId newQuantity = (o, some .invalidState)) :=
  ⟨fun productId quantity unitPrice =>
      Order.addItem_non_draft h productId quantity unitPrice,
   fun productId => Order.removeItem_non_draft h productId,
   fun productId newQuantity =>
      Order.changeItemQuantity_non_draft h productId newQuantity⟩

/-- Witness for C3: addItem on a concrete placed order. -/
theorem mutations_on_non_draft_fail_witness :
    (((Order.create "o1" "C1").addItem "P1" 1 ⟨500, "JPY"⟩).fst.place 0).fst.addItem
        "P2" 1 ⟨100, "JPY"⟩ =
      ((((Order.create "o1" "C1").addItem "P1" 1 ⟨500, "JPY"⟩).fst.place 0).fst,
        some .invalidState) :=
  (mutations_on_non_draft_fail _ (by decide)).1 "P2" 1 ⟨100, "JPY"⟩

/-- C4: cancel() succeeds, setting the status to cancelled, exactly when
the status is draft, placed or paid; from shipped, delivered or cancelled
it fails with the order unchanged; and delivered and cancelled are
terminal: every operation from them returns the order unchanged (in
particular the status never changes). -/
theorem cancel_spec (o : Order) :
    ((o.status = .draft ∨ o.status = .placed ∨ o.status = .paid) →
      o.cancel = ({ o with status := .cancelled }, none)) ∧
    ((o.status = .shipped ∨ o.status = .delivered ∨ o.status = .cancelled) →
      o.cancel = (o, some .invalidState)) ∧
    ((o.status = .delivered ∨ o.status = .cancelled) →
      ∀ op, (o.apply op).fst = o) := by
  refine ⟨?_, ?_, fun h op => Order.terminal_apply_eq h op⟩
  · intro h
    unfold Order.cancel
    rw [if_neg (by rcases h with h | h | h <;> simp [h])]
  · intro h
    unfold Order.cancel
    rw [if_pos h]

/-- Witness for C4: cancelling a fresh draft order. -/
theorem cancel_spec_witness :
    (Order.create "o1" "C1").cancel =
      ({ Order.create "o1" "C1" with status := .cancelled }, none) :=
  (cancel_spec (Order.create "o1" "C1")).1 (Or.inl rfl)

/-- C5: addItem with a product reference matching an existing line
increases that line's quantity by the given quantity in place (no
duplicate line, line count unchanged); removeItem with no matching line
fails with itemNotFound leaving the order unchanged; and concretely,
addItem(P1, 2, ¥1000) then addItem(P1, 3, ¥1000) on a fresh order yields
a single line of quantity 5 and a total of ¥5000. -/
theorem addItem_merges_removeItem_not_found (o : Order) (productId : String)
    (quantity : Int) (unitPrice : Money) (l₁ l₂ : List OrderItem)
    (item : OrderItem) :
    (o.status = .draft → o.items.length < Order.maxItems →
      o.items = l₁ ++ item :: l₂ →
      (∀ i ∈ l₁, i.hasProduct productId = false) →
      item.hasProduct productId = true →
      0 < item.quantity + quantity →
      (o.addItem productId quantity unitPrice).fst.items =
          l₁ ++ { item with quantity := item.quantity + quantity } :: l₂ ∧
        (o.addItem productId quantity unitPrice).fst.items.length =
          o.items.length) ∧
    (o.status = .draft → (∀ i ∈ o.items, i.hasProduct productId = false) →
      o.removeItem productId = (o, some .itemNotFound)) ∧
    ((((Order.create "o1" "C1").addItem "P1" 2 ⟨1000, "JPY"⟩).fst.addItem
        "P1" 3 ⟨1000, "JPY"⟩).fst.items = [⟨"P1", 5, ⟨1000, "JPY"⟩⟩] ∧
      (((Order.create "o1" "C1").addItem "P1" 2 ⟨1000, "JPY"⟩).fst.addItem
        "P1" 3 ⟨1000, "JPY"⟩).fst.totalAmount = ⟨5000, "JPY"⟩ ∧
      (((Order.create "o1" "C1").addItem "P1" 2 ⟨1000, "JPY"⟩).fst.addItem
        "P1" 3 ⟨1000, "JPY"⟩).snd = none) := by
  refine ⟨?_, ?_, by decide⟩
  · intro hd hlen hitems h₁ h₂ h₃
    have hok : o.ensureCanModify = .ok () := by
      unfold Order.ensureCanModify
      rw [if_neg (by simp [hd])]
    have hup : Order.updateFirstQuantity o.items productId
        (fun q => q + quantity) =
        some (.ok (l₁ ++ { item with quantity := item.quantity + quantity }
          :: l₂)) := by
      rw [hitems]
      exact Order.updateFirstQuantity_append productId _ l₁ item l₂ h₁ h₂ h₃
    unfold Order.addItem
    rw [hok, if_neg (Nat.not_le.mpr hlen), hup]
    refine ⟨Order.finishMutation_fst_items .., ?_⟩
    rw [Order.finishMutation_fst_items, hitems]
    simp
  · intro hd hnone
    have hok : o.ensureCanModify = .ok () := by
      unfold Order.ensureCanModify
      rw [if_neg (by simp [hd])]
    unfold Order.removeItem
    rw [hok, List.findIdx?_eq_none_iff.mpr hnone]

/-- Witness for C5: the merge case at a concrete one-line order. -/
theorem addItem_merges_removeItem_not_found_witness :
    (((Order.create "o1" "C1").addItem "P1" 2 ⟨1000, "JPY"⟩).fst.addItem "P1" 3
        ⟨1000, "JPY"⟩).fst.items =
      [] ++ ({ productId := "P1", quantity := (2 : Int) + 3,
               unitPrice := ⟨1000, "JPY"⟩ } : OrderItem) :: [] :=
  ((addItem_merges_removeItem_not_found
      ((Order.create "o1" "C1").addItem "P1" 2 ⟨1000, "JPY"⟩).fst "P1" 3
      ⟨1000, "JPY"⟩ [] [] ⟨"P1", 2, ⟨1000, "JPY"⟩⟩).1
    (by rfl) (by decide) (by rfl) (by simp) (by decide) (by decide)).1

/-- C6: an Order operation that fails with one of the errors the claim
enumerates — invalidState, emptyOrder, itemNotFound, or an invalid
quantity (raised during an addItem merge, a new-line construction, or
changeItemQuantity) — aborts before any mutation: the whole aggregate
(item list, quantities, status, total amount) is exactly its prior
state. -/
theorem listed_errors_leave_order_unchanged (o : Order) (op : OrderOp)
    (e : DomainError) (h : (o.apply op).snd = some e)
    (hl : e = .invalidState ∨ e = .emptyOrder ∨ e = .itemNotFound ∨
      e = .invalidQuantity) :
    (o.apply op).fst = o := by
  have hmoney : ¬(e = .currencyMismatch ∨ e = .invalidFactor ∨
      e = .invalidAmount ∨ e = .invalidCurrency) := by
    rcases hl with rfl | rfl | rfl | rfl <;> simp
  cases op with
  | addItem productId quantity unitPrice =>
    rcases Order.addItem_fail o productId quantity unitPrice e h with h' | h'
    · exact h'
    · exact absurd h' hmoney
  | removeItem productId =>
    rcases Order.removeItem_fail o productId e h with h' | h'
    · exact h'
    · exact absurd h' hmoney
  | changeItemQuantity productId newQuantity =>
    rcases Order.changeItemQuantity_fail o productId newQuantity e h
        with h' | h'
    · exact h'
    · exact absurd h' hmoney
  | place now => exact (Order.transition_fail o now).1 e h
  | markAsPaid => exact (Order.transition_fail o 0).2.1 e h
  | ship => exact (Order.transition_fail o 0).2.2.1 e h
  | deliver => exact (Order.transition_fail o 0).2.2.2.1 e h
  | cancel => exact (Order.transition_fail o 0).2.2.2.2 e h

/-- Witness for C6: a failing place() on a fresh (empty) order leaves it
unchanged. -/
theorem listed_errors_leave_order_unchanged_witness :
    ((Order.create "o1" "C1").apply (.place 0)).fst = Order.create "o1" "C1" :=
  listed_errors_leave_order_unchanged (Order.create "o1" "C1") (.place 0)
    .emptyOrder (by rfl) (Or.inr (Or.inl rfl))

/-- C7 counterexample: multiply takes a plain numeric factor, not a
Money, so a multiplication whose factor comes from a Money of a
different currency succeeds instead of failing with currencyMismatch. -/
theorem multiply_not_currency_checked :
    Money.currency ⟨100, "JPY"⟩ ≠ Money.currency ⟨2, "USD"⟩ ∧
    Money.multiply ⟨100, "JPY"⟩ (Money.amount ⟨2, "USD"⟩) =
      .ok ⟨200, "JPY"⟩ :=
  ⟨by decide, rfl⟩

/-- C7 (amended): add and subtract on Money values with differing
currency codes always fail with currencyMismatch; multiply, whose second
argument is a number rather than a Money, performs no currency check and
never raises currencyMismatch. -/
theorem money_binary_currency_mismatch (m other : Money)
    (h : m.currency ≠ other.currency) :
    m.add other = .error .currencyMismatch ∧
    m.subtract other = .error .currencyMismatch ∧
    ∀ k : Int, m.multiply k ≠ .error .currencyMismatch := by
  refine ⟨?_, ?_, ?_⟩
  · unfold Money.add Money.assertSameCurrency
    rw [if_pos h]
    rfl
  · unfold Money.subtract Money.assertSameCurrency
    rw [if_pos h]
    rfl
  · intro k hk
    rcases Money.multiply_error hk with h' | h' | h' <;> cases h'

/-- Witness for C7 (amended): concrete JPY and USD values. -/
theorem money_binary_currency_mismatch_witness :
    Money.add ⟨1, "JPY"⟩ ⟨1, "USD"⟩ = .error .currencyMismatch ∧
    Money.subtract ⟨1, "JPY"⟩ ⟨1, "USD"⟩ = .error .currencyMismatch :=
  ⟨(money_binary_currency_mismatch ⟨1, "JPY"⟩ ⟨1, "USD"⟩ (by decide)).1,
   (money_binary_currency_mismatch ⟨1, "JPY"⟩ ⟨1, "USD"⟩ (by decide)).2.1⟩

/-- C8 counterexample: cancelling an empty draft order yields a
reachable Order that has left the draft state yet contains no items. -/
theorem reachable_non_draft_empty_order :
    Order.Reachable ((Order.create "o1" "C1").apply .cancel).fst ∧
    ((Order.create "o1" "C1").apply .cancel).fst.status ≠ .draft ∧
    ((Order.create "o1" "C1").apply .cancel).fst.items = [] :=
  ⟨Order.Reachable.step .cancel (Order.Reachable.create "o1" "C1"),
   by decide, rfl⟩

/-- C8 (amended): every reachable Order whose status is placed, paid,
shipped or delivered contains at least one item.  Cancelled must be
excluded: an empty draft order can be cancelled, so a cancelled reachable
order may hold zero items. -/
theorem reachable_progressed_order_has_items (o : Order)
    (hr : Order.Reachable o) :
    (o.status = .placed ∨ o.status = .paid ∨ o.status = .shipped ∨
      o.status = .delivered) → o.items ≠ [] := by
  induction hr with
  | create id customerId =>
    intro hs
    simp [Order.create] at hs
  | step op hro ih =>
    rename_i o
    intro hs
    cases op with
    | addItem productId quantity unitPrice =>
      simp only [Order.apply] at hs ⊢
      by_cases hd : o.status = .draft
      · rw [Order.addItem_fst_status, hd] at hs
        simp at hs
      · rw [Order.addItem_non_draft hd] at hs ⊢
        exact ih hs
    | removeItem productId =>
      simp only [Order.apply] at hs ⊢
      by_cases hd : o.status = .draft
      · rw [Order.removeItem_fst_status, hd] at hs
        simp at hs
      · rw [Order.removeItem_non_draft hd] at hs ⊢
        exact ih hs
    | changeItemQuantity productId newQuantity =>
      simp only [Order.apply] at hs ⊢
      by_cases hd : o.status = .draft
      · rw [Order.changeItemQuantity_fst_status, hd] at hs
        simp at hs
      · rw [Order.changeItemQuantity_non_draft hd] at hs ⊢
        exact ih hs
    | place now =>
      simp only [Order.apply] at hs ⊢
      unfold Order.place at hs ⊢
      by_cases h₁ : o.status ≠ .draft
      · rw [if_pos h₁] at hs ⊢
        exact ih hs
      · rw [if_neg h₁] at hs ⊢
        by_cases h₂ : o.items.length = 0
        · rw [if_pos h₂] at hs ⊢
          exact ih hs
        · rw [if_neg h₂] at hs ⊢
          exact fun hnil => h₂ (List.length_eq_zero.mpr hnil)
    | markAsPaid =>
      simp only [Order.apply] at hs ⊢
      unfold Order.markAsPaid at hs ⊢
      by_cases h₁ : o.status ≠ .placed
      · rw [if_pos h₁] at hs ⊢
        exact ih hs
      · rw [if_neg h₁] at hs ⊢
        push_neg at h₁
        exact ih (Or.inl h₁)
    | ship =>
      simp only [Order.apply] at hs ⊢
      unfold Order.ship at hs ⊢
      by_cases h₁ : o.status ≠ .paid
      · rw [if_pos h₁] at hs ⊢
        exact ih hs
      · rw [if_neg h₁] at hs ⊢
        push_neg at h₁
        exact ih (Or.inr (Or.inl h₁))
    | deliver =>
      simp only [Order.apply] at hs ⊢
      unfold Order.deliver at hs ⊢
      by_cases h₁ : o.status ≠ .shipped
      · rw [if_pos h₁] at hs ⊢
        exact ih hs
      · rw [if_neg h₁] at hs ⊢
        push_neg at h₁
        exact ih (Or.inr (Or.inr (Or.inl h₁)))
    | cancel =>
      simp only [Order.apply] at hs ⊢
      unfold Order.cancel at hs ⊢
      by_cases h₁ : o.status = .shipped ∨ o.status = .delivered ∨
          o.status = .cancelled
      · rw [if_pos h₁] at hs ⊢
        exact ih hs
      · rw [if_neg h₁] at hs ⊢
        simp at hs

/-- Witness for C8 (amended): a concrete placed one-item order. -/
theorem reachable_progressed_order_has_items_witness :
    (((Order.create "o1" "C1").apply
        (.addItem "P1" 1 ⟨500, "JPY"⟩)).fst.apply (.place 0)).fst.items ≠ [] :=
  reachable_progressed_order_has_items _
    (Order.Reachable.step (.place 0)
      (Order.Reachable.step (.addItem "P1" 1 ⟨500, "JPY"⟩)
        (Order.Reachable.create "o1" "C1")))
    (Or.inl (by rfl))

/-- C9: for every repository state, saving an order and then looking it
up by the order's identifier returns a present result (never an absent
one), and any returned value is equal to the saved order by identifier
(via Order.equals). -/
theorem save_findById_roundtrip (repo : InMemoryOrderRepository) (o : Order) :
    (repo.save o).findById o.id = some o ∧
    ∀ found, (repo.save o).findById o.id = some found →
      Order.equalsOrder found o = true := by
  have h : (repo.save o).findById o.id = some o := by
    unfold InMemoryOrderRepository.findById InMemoryOrderRepository.save
    rw [if_pos rfl]
  refine ⟨h, fun found hf => ?_⟩
  rw [h] at hf
  have hof : o = found := by simpa using hf
  subst hof
  simp [Order.equalsOrder]

/-- Witness for C9: round trip through an initially empty repository. -/
theorem save_findById_roundtrip_witness :
    (InMemoryOrderRepository.empty.save (Order.create "o1" "C1")).findById
        "o1" = some (Order.create "o1" "C1") ∧
    Order.equalsOrder (Order.create "o1" "C1") (Order.create "o1" "C1") =
      true :=
  ⟨(save_findById_roundtrip InMemoryOrderRepository.empty
      (Order.create "o1" "C1")).1,
   (save_findById_roundtrip InMemoryOrderRepository.empty
      (Order.create "o1" "C1")).2 (Order.create "o1" "C1") (by rfl)⟩

/-- Concrete draft order with 100 distinct lines (products "0" – "99"). -/
def order100 : Order :=
  { id := "o100", customerId := "C1",
    items := (List.range 100).map
      (fun i => { productId := toString i, quantity := 1,
                  unitPrice := ⟨100, "JPY"⟩ }),
    status := .draft, totalAmount := ⟨10000, "JPY"⟩, placedAt := none }

/-- C10 counterexample: at the 100-line cap, addItem fails even when the
product matches an existing line — the cap check precedes the merge
lookup — so a merging addItem does not succeed at the limit. -/
theorem addItem_merge_fails_at_cap :
    order100.status = .draft ∧
    order100.items.length = Order.maxItems ∧
    order100.items.any (fun i => i.hasProduct "0") = true ∧
    order100.addItem "0" 1 ⟨100, "JPY"⟩ = (order100, some .maxItemsExceeded) :=
  ⟨rfl, rfl, by decide, by decide⟩

/-- C10 (amended): a draft Order holds at most 100 lines: addItem on a
draft order that already has at least 100 lines always fails with the
max-items error and leaves the order unchanged, whether or not the
product matches an existing line; and addItem never pushes the line
count beyond 100 (a merging addItem never adds a line). -/
theorem addItem_line_cap (o : Order) (productId : String) (quantity : Int)
    (unitPrice : Money) :
    (o.status = .draft → Order.maxItems ≤ o.items.length →
      o.addItem productId quantity unitPrice = (o, some .maxItemsExceeded)) ∧
    (o.items.length ≤ Order.maxItems →
      (o.addItem productId quantity unitPrice).fst.items.length ≤
        Order.maxItems) := by
  constructor
  · intro hd hlen
    have hok : o.ensureCanModify = .ok () := by
      unfold Order.ensureCanModify
      rw [if_neg (by simp [hd])]
    unfold Order.addItem
    rw [hok, if_pos hlen]
  · intro hle
    rcases hc : o.ensureCanModify with e | u
    · unfold Order.addItem
      rw [hc]
      exact hle
    · by_cases hlen : Order.maxItems ≤ o.items.length
      · unfold Order.addItem
        rw [hc, if_pos hlen]
        exact hle
      · rcases hu : Order.updateFirstQuantity o.items productId
            (fun q => q + quantity) with _ | exl
        · rcases hm : OrderItem.make productId quantity unitPrice
              with e₁ | newItem
          · unfold Order.addItem
            rw [hc, if_neg hlen, hu, hm]
            exact hle
          · unfold Order.addItem
            rw [hc, if_neg hlen, hu, hm]
            show (Order.finishMutation o (o.items ++ [newItem])).fst.items.length ≤
              Order.maxItems
            rw [Order.finishMutation_fst_items]
            have hstep : o.items.length + 1 ≤ Order.maxItems := by
              unfold Order.maxItems at hlen ⊢
              omega
            simpa using hstep
        · rcases exl with e₁ | items₁
          · unfold Order.addItem
            rw [hc, if_neg hlen, hu]
            exact hle
          · unfold Order.addItem
            rw [hc, if_neg hlen, hu]
            show (Order.finishMutation o items₁).fst.items.length ≤
              Order.maxItems
            rw [Order.finishMutation_fst_items,
              Order.updateFirstQuantity_length o.items productId _ items₁ hu]
            exact hle

/-- Witness for C10 (amended): the cap firing on the concrete 100-line
order. -/
theorem addItem_line_cap_witness :
    order100.addItem "50" 2 ⟨100, "JPY"⟩ = (order100, some .maxItemsExceeded) :=
  (addItem_line_cap order100 "50" 2 ⟨100, "JPY"⟩).1 (by rfl) (by decide)
